import Mathlib

/-!
Verification of the goconfig layered configuration loader.

Shallow embedding of the repository `bretmckee/goconfig`: a merge-precedence
engine that overlays configuration values from YAML files, environment
variables and command-line flags into a caller-supplied typed object.

The repository has two engine variants with the same two-field value object
and the same normalization function:

* `goconfig` (file `goconfig.go`) — the current engine, driven by a
  `pflag.FlagSet` and koanf's `posflag` provider;
* `cfgloader` (file `pkg/cfgloader/cfgloader.go`) — the legacy engine,
  driven by the standard `flag.FlagSet` and koanf's `basicflag` provider.

Go strings are modelled as `List Char` (`GoStr`).  Go's `len` on a string is
its UTF-8 byte length, modelled by `utf8Len`.  The koanf key/value store is
modelled as a function from keys to optional values, which captures the
scalar overwrite semantics the engine relies on (a later write to a key
replaces an earlier one).  External collaborators that live outside this
repository (koanf's `env`, `posflag` and `basicflag` providers, the file
reader/YAML decoder, and `koanf.Unmarshal`) are modelled from the spec, as
noted in their doc comments; everything else is translated from the source.
-/

/-- A Go string, modelled as its sequence of characters. -/
abbrev GoStr := List Char

/-- Go `len(s)` on a string: the UTF-8 byte length. -/
def utf8Len (s : GoStr) : Nat :=
  s.foldl (fun n c => n + c.utf8Size) 0

/-- Go `strings.ToLower` (ASCII range; the claims only exercise ASCII). -/
def goToLower (s : GoStr) : GoStr :=
  s.map Char.toLower

/-- Go `strings.TrimPrefix(s, p)`: drop `p` from the front of `s` when `p`
is literally (case-sensitively) a leading substring, otherwise return `s`
unchanged. -/
def goTrimPrefix (s p : GoStr) : GoStr :=
  if p.isPrefixOf s then s.drop p.length else s

/-- Go `strings.Replace(s, "_", d, -1)`: replace every occurrence of the
single-character pattern `"_"` by the string `d`. -/
def goReplaceUnderscore (d : GoStr) : GoStr → GoStr
  | [] => []
  | c :: rest =>
    (if c = '_' then d else [c]) ++ goReplaceUnderscore d rest

namespace goconfig

/-- Structure `goconfig.Config`: the engine value object, holding the environment
prefix and the flag delimiter (Go fields `prefix` and `delimiter`; the
constructor parameters are named `envPrefix` and `flagDelimiter`). -/
structure Config where
  envPrefix : GoStr
  delimiter : GoStr
  deriving DecidableEq, Repr

/-- The error class of `goconfig.New`: `BadDelimiterError`, wrapped with the
offending delimiter (`fmt.Errorf("invalid delimiter %q: %w", ...)`). -/
inductive NewError where
  | badDelimiter (given : GoStr)
  deriving DecidableEq, Repr

/-- Function `goconfig.New(envPrefix, flagDelimiter)`: fails when
`len(flagDelimiter) != 1` (Go byte length), otherwise returns the value
object holding exactly the two arguments.  No side effects. -/
def New (envPrefix flagDelimiter : GoStr) : Except NewError Config :=
  if utf8Len flagDelimiter ≠ 1 then
    Except.error (NewError.badDelimiter flagDelimiter)
  else
    Except.ok ⟨envPrefix, flagDelimiter⟩

/-- Function `goconfig.Config.updateEnv`:
`strings.Replace(strings.ToLower(strings.TrimPrefix(s, c.prefix)), "_", c.delimiter, -1)`. -/
def Config.updateEnv (c : Config) (s : GoStr) : GoStr :=
  goReplaceUnderscore c.delimiter (goToLower (goTrimPrefix s c.envPrefix))

end goconfig

namespace cfgloader

/-- Structure `cfgloader.Config`: same two-field value object as the current engine. -/
structure Config where
  envPrefix : GoStr
  delimiter : GoStr
  deriving DecidableEq, Repr

/-- The error of `cfgloader.New`
(`fmt.Errorf("delimiter must contain exactly 1 character: %q", ...)`). -/
inductive NewError where
  | badDelimiter (given : GoStr)
  deriving DecidableEq, Repr

/-- Function `cfgloader.New(envPrefix, flagDelimiter)`: same validation as the
current engine — fails when `len(flagDelimiter) != 1` (Go byte length). -/
def New (envPrefix flagDelimiter : GoStr) : Except NewError Config :=
  if utf8Len flagDelimiter ≠ 1 then
    Except.error (NewError.badDelimiter flagDelimiter)
  else
    Except.ok ⟨envPrefix, flagDelimiter⟩

/-- Function `cfgloader.Config.updateEnv`: textually identical to
`goconfig.Config.updateEnv` in the source. -/
def Config.updateEnv (c : Config) (s : GoStr) : GoStr :=
  goReplaceUnderscore c.delimiter (goToLower (goTrimPrefix s c.envPrefix))

end cfgloader

/-- The reserved flag name designating configuration files
(`FileArgName = "config"`, identical in both engine variants). -/
def FileArgName : GoStr := "config".data

/-- The koanf key/value store, built fresh on every load call.  Modelled as
a map from (already delimiter-joined) key paths to scalar string values;
`storeSet` overwrites, which is the scalar overlay semantics the engine
relies on. -/
abbrev Store := GoStr → Option GoStr

/-- The empty store created by `koanf.New(c.delimiter)`. -/
def emptyStore : Store := fun _ => none

/-- Write one key: a later write to the same key replaces an earlier one. -/
def storeSet (st : Store) (k v : GoStr) : Store :=
  fun q => if q = k then some v else st q

/-- Merge a batch of key/value pairs into the store, in list order. -/
def mergePairs (st : Store) (kvs : List (GoStr × GoStr)) : Store :=
  kvs.foldl (fun s kv => storeSet s kv.1 kv.2) st

/-- The value held by a flag: a scalar or a string slice (the `"config"`
flag is a string-slice flag; everything else in the claims is scalar). -/
inductive FlagValue where
  | scalar (v : GoStr)
  | slice (xs : List GoStr)
  deriving DecidableEq, Repr

/-- Go `strings.Join(xs, ",")`, the textual form of a string-slice value. -/
def goJoinComma : List GoStr → GoStr
  | [] => []
  | [x] => x
  | x :: y :: rest => x ++ ',' :: goJoinComma (y :: rest)

/-- Textual form of a flag's current value (`Value.String()`). -/
def flagValueStr : FlagValue → GoStr
  | FlagValue.scalar v => v
  | FlagValue.slice xs => goJoinComma xs

/-- One defined flag: its name, its current value (the default when the
flag was not passed on the command line), and whether it was explicitly
set (`pflag.Flag.Changed`). -/
structure FlagDef where
  name : GoStr
  value : FlagValue
  changed : Bool
  deriving DecidableEq, Repr

/-- The external flag collaborator (`pflag.FlagSet` in the current engine,
`flag.FlagSet` in the legacy one): the defined flags, plus the possibility
that the collaborator reports an inconsistency while its values are being
queried during the flag-loading step (`readErr`), which makes that step's
`k.Load` call return an error. -/
structure FlagSet where
  flags : List FlagDef
  readErr : Option GoStr
  deriving DecidableEq, Repr

/-- Method `FlagSet.Lookup(name)`: the defined flag with that name, if any. -/
def FlagSet.lookup (f : FlagSet) (n : GoStr) : Option FlagDef :=
  f.flags.find? (fun fl => fl.name = n)

/-- Modelled from the spec: the file-content collaborator
(koanf's `file.Provider` composed with `yaml.Parser`, external libraries not
under `src/`) — maps a path either to a read/decode error message or to the
flattened key/value tree decoded from the file's content. -/
abbrev FS := GoStr → Except GoStr (List (GoStr × GoStr))

/-- The error classes a load call can return, over both engine variants. -/
inductive LoadError where
  | optionType
  | sliceConv
  | fileErr (path msg : GoStr)
  | flagRead (msg : GoStr)
  deriving DecidableEq, Repr

/-- The caller's typed result object: a list of (field tag path, value)
pairs, values kept as strings (type conversion is outside the claims). -/
abbrev Target := List (GoStr × GoStr)

/-- Outcome of a load call: a populated target, a returned error, or
process termination via `log.Fatalf` (which never returns to the caller). -/
inductive LoadOutcome where
  | ok (t : Target)
  | err (e : LoadError)
  | fatal (msg : GoStr)
  deriving DecidableEq, Repr

/-- Modelled from the spec: eligibility filtering performed by koanf's
`env.Provider` (external library, not under `src/`): "a variable is
eligible only if, after case-insensitive comparison, it begins with the
configured prefix when prefix is non-empty; when prefix is empty, every
variable is eligible". -/
def eligible (envPrefix n : GoStr) : Bool :=
  envPrefix = [] || (goToLower envPrefix).isPrefixOf (goToLower n)

/-- Modelled from the spec: the environment-loading step performed by
`k.Load(env.Provider(c.prefix, c.delimiter, c.updateEnv), nil)` — enumerate
the environment, keep the eligible variables, normalize each name with the
supplied callback, and write name→value into the store, overwriting
same-keyed earlier values.  Values stay strings; the step is total. -/
def envStep (envPrefix : GoStr) (transform : GoStr → GoStr)
    (env : List (GoStr × GoStr)) (st : Store) : Store :=
  env.foldl
    (fun s nv => if eligible envPrefix nv.1 then storeSet s (transform nv.1) nv.2 else s)
    st

/-- The file-loading loop of `Config.Load`: for each path in the order
supplied, decode the file and deep-merge it into the store; the first
failure is returned at once (`return fmt.Errorf("Load file %s: %v", ...)`),
without touching the remaining paths. -/
def loadFiles (fsys : FS) : List GoStr → Store → Except LoadError Store
  | [], st => Except.ok st
  | p :: rest, st =>
    match fsys p with
    | Except.error msg => Except.error (LoadError.fileErr p msg)
    | Except.ok kvs => loadFiles fsys rest (mergePairs st kvs)

/-- Modelled from the spec: the writes performed by the flag-loading step
(`posflag.Provider` in the current engine, `basicflag.Provider` in the
legacy one — external libraries not under `src/`): "read every flag defined
on the external flag collaborator that was actually set or has a default,
using the flag's own name as the store key, and write into the store,
overwriting any value already present from file or environment steps". -/
def flagWrites (fs : List FlagDef) (st : Store) : Store :=
  fs.foldl (fun s fl => storeSet s fl.name (flagValueStr fl.value)) st

/-- The flag-loading step's `k.Load` call: fails when the flag collaborator
reports an inconsistency while being queried, otherwise performs the
flag writes. -/
def flagProviderRead (f : FlagSet) (st : Store) : Except GoStr Store :=
  match f.readErr with
  | some m => Except.error m
  | none => Except.ok (flagWrites f.flags st)

/-- Modelled from the spec: the materialization step (`k.Unmarshal("", cfg)`,
koanf, not under `src/`) — bind the merged store onto the caller's result
object, matching store keys to field tag paths; fields whose key is absent
from the store keep their caller-supplied value.  Type conversion is
abstracted away (all values are strings), so this model of the step is
total. -/
def materialize (st : Store) (t : Target) : Target :=
  t.map (fun fv => (fv.1, (st fv.1).getD fv.2))

/-- Supported file formats.  Both engine variants instantiate the decoder
with `yaml.Parser()` in the source. -/
inductive FileFormat where
  | yaml
  | json
  deriving DecidableEq, Repr

namespace goconfig

/-- The decoder the current engine passes to `k.Load` for files:
`yaml.Parser()` (`goconfig.go` line 82). -/
def fileFormat : FileFormat := FileFormat.yaml

/-- The current engine's reading of the `"config"` option:
`f.Lookup(FileArgName)` — when absent the file step is skipped (empty path
list); when present, `f.GetStringSlice(FileArgName)`, which fails
(`"Load GetStringSlice"`) when the flag is not a string-slice flag. -/
def getConfigSlice (f : FlagSet) : Except LoadError (List GoStr) :=
  match f.lookup FileArgName with
  | none => Except.ok []
  | some fl =>
    match fl.value with
    | FlagValue.slice xs => Except.ok xs
    | FlagValue.scalar _ => Except.error LoadError.optionType

/-- Method `goconfig.Config.Load(f, cfg)`: build a fresh store, load the config
files named by the `"config"` option (if defined), then the eligible
environment variables, then the flags, then materialize into `cfg`.  Note
the flag phase: on error the source calls `log.Fatalf("Load flags: %v")`,
which terminates the process instead of returning the error. -/
def Config.Load (c : Config) (fsys : FS) (env : List (GoStr × GoStr))
    (f : FlagSet) (cfg : Target) : LoadOutcome :=
  match getConfigSlice f with
  | Except.error e => LoadOutcome.err e
  | Except.ok paths =>
    match loadFiles fsys paths emptyStore with
    | Except.error e => LoadOutcome.err e
    | Except.ok st1 =>
      match flagProviderRead f (envStep c.envPrefix c.updateEnv env st1) with
      | Except.error m => LoadOutcome.fatal m
      | Except.ok st3 => LoadOutcome.ok (materialize st3 cfg)

end goconfig

namespace cfgloader

/-- The decoder the legacy engine passes to `k.Load` for files:
`yaml.Parser()` (`cfgloader.go` line 76). -/
def fileFormat : FileFormat := FileFormat.yaml

/-- The legacy engine's reading of the `"config"` option:
`f.Lookup(FileArgName)` — when absent the file step is skipped; when
present, the flag's value must be a `*stringslice.StringSlice`, otherwise
`"Load string slice conversion error"`. -/
def getConfigSlice (f : FlagSet) : Except LoadError (List GoStr) :=
  match f.lookup FileArgName with
  | none => Except.ok []
  | some fl =>
    match fl.value with
    | FlagValue.slice xs => Except.ok xs
    | FlagValue.scalar _ => Except.error LoadError.sliceConv

/-- Method `cfgloader.Config.Load(cfg, f)`: same phase order as the current
engine; the flag phase returns its error to the caller
(`fmt.Errorf("Load flags: %v", err)`). -/
def Config.Load (c : Config) (fsys : FS) (env : List (GoStr × GoStr))
    (f : FlagSet) (cfg : Target) : LoadOutcome :=
  match getConfigSlice f with
  | Except.error e => LoadOutcome.err e
  | Except.ok paths =>
    match loadFiles fsys paths emptyStore with
    | Except.error e => LoadOutcome.err e
    | Except.ok st1 =>
      match flagProviderRead f (envStep c.envPrefix c.updateEnv env st1) with
      | Except.error m => LoadOutcome.err (LoadError.flagRead m)
      | Except.ok st3 => LoadOutcome.ok (materialize st3 cfg)

end cfgloader

example : goconfig.New "TEST_".data ".".data =
    Except.ok ⟨"TEST_".data, ".".data⟩ := rfl

example : (goconfig.New "TEST_".data "---".data).isOk = false := rfl

example :
    (goconfig.Config.mk "TEST_".data ".".data).updateEnv "TEST_NESTED_VAL".data
      = "nested.val".data := by decide

/-! ## Helper lemmas -/

theorem storeSet_same (st : Store) (k v : GoStr) : storeSet st k v k = some v := by
  simp [storeSet]

theorem storeSet_other (st : Store) (k v q : GoStr) (h : q ≠ k) :
    storeSet st k v q = st q := by
  simp [storeSet, h]

theorem goReplaceUnderscore_single (d : Char) (xs : GoStr) :
    goReplaceUnderscore [d] xs = xs.map (fun ch => if ch = '_' then d else ch) := by
  induction xs with
  | nil => rfl
  | cons c rest ih =>
    by_cases h : c = '_' <;> simp [goReplaceUnderscore, h, ih]

theorem flagWrites_append (a b : List FlagDef) (st : Store) :
    flagWrites (a ++ b) st = flagWrites b (flagWrites a st) := by
  simp [flagWrites, List.foldl_append]

theorem flagWrites_not_named (fs : List FlagDef) (st : Store) (q : GoStr)
    (h : ∀ fl ∈ fs, fl.name ≠ q) : flagWrites fs st q = st q := by
  induction fs generalizing st with
  | nil => rfl
  | cons fl rest ih =>
    have hq : fl.name ≠ q := h fl (List.mem_cons_self fl rest)
    have hrest : ∀ g ∈ rest, g.name ≠ q := fun g hg => h g (List.mem_cons_of_mem fl hg)
    calc flagWrites (fl :: rest) st q
        = flagWrites rest (storeSet st fl.name (flagValueStr fl.value)) q := rfl
      _ = storeSet st fl.name (flagValueStr fl.value) q := ih _ hrest
      _ = st q := storeSet_other _ _ _ _ (fun hqe => hq hqe.symm)

theorem envStep_ineligible (pref : GoStr) (tf : GoStr → GoStr)
    (env : List (GoStr × GoStr)) (st : Store)
    (h : ∀ nv ∈ env, eligible pref nv.1 = false) :
    envStep pref tf env st = st := by
  induction env generalizing st with
  | nil => rfl
  | cons nv rest ih =>
    have h0 : eligible pref nv.1 = false := h nv (List.mem_cons_self nv rest)
    have hrest : ∀ g ∈ rest, eligible pref g.1 = false :=
      fun g hg => h g (List.mem_cons_of_mem nv hg)
    calc envStep pref tf (nv :: rest) st
        = envStep pref tf rest (if eligible pref nv.1 then storeSet st (tf nv.1) nv.2 else st) := rfl
      _ = envStep pref tf rest st := by rw [h0]; simp
      _ = st := ih _ hrest

theorem loadFiles_all_empty (fsys : FS) (ps : List GoStr) (st : Store)
    (h : ∀ p ∈ ps, fsys p = Except.ok []) :
    loadFiles fsys ps st = Except.ok st := by
  induction ps with
  | nil => rfl
  | cons p rest ih =>
    have h0 : fsys p = Except.ok [] := h p (List.mem_cons_self p rest)
    have hrest : ∀ q ∈ rest, fsys q = Except.ok [] :=
      fun q hq => h q (List.mem_cons_of_mem p hq)
    simp [loadFiles, h0, mergePairs, ih hrest]

/-! ## Claims -/

/-- Claim C3, counterexample. The claim says any single-rune delimiter is
accepted; but the source checks `len(flagDelimiter) != 1`, which in Go is
the UTF-8 byte length, so the single-rune, two-byte delimiter `"é"` is
rejected by `New`. -/
theorem C3_counterexample :
    ("é".data : GoStr).length = 1 ∧
      goconfig.New ("p".data) ("é".data)
        = Except.error (goconfig.NewError.badDelimiter ("é".data)) := by
  exact ⟨rfl, rfl⟩

/-- Claim C3, amended. `New(p, d)` fails with the `BadDelimiterError` class
if and only if `d` is not exactly one byte (Go `len`); so `New(p, "")` and
`New(p, "ab")` fail, any single-byte delimiter succeeds, and a multi-byte
single rune also fails.  On success the returned engine holds exactly `p`
and `d`; construction is a pure value construction with no side effects. -/
theorem C3_new_validates_delimiter (p d : GoStr) :
    (goconfig.New p d = Except.ok ⟨p, d⟩ ↔ utf8Len d = 1) ∧
      (goconfig.New p d = Except.error (goconfig.NewError.badDelimiter d) ↔ utf8Len d ≠ 1) := by
  by_cases h : utf8Len d = 1 <;> simp [goconfig.New, h]

/-- Claim C4. An environment variable is eligible for the environment-loading
step iff its name begins with the configured prefix under case-insensitive
comparison when the prefix is non-empty; with an empty prefix every
variable is eligible.  The last conjunct ties eligibility to the step: an
eligible variable is written into the store under its normalized name, an
ineligible one writes nothing. -/
theorem C4_env_eligibility (pref n : GoStr) :
    (pref ≠ [] →
      (eligible pref n = true ↔ (goToLower pref).isPrefixOf (goToLower n) = true)) ∧
    (pref = [] → eligible pref n = true) ∧
    (∀ (tf : GoStr → GoStr) (v : GoStr) (st : Store),
      envStep pref tf [(n, v)] st =
        if eligible pref n then storeSet st (tf n) v else st) := by
  refine ⟨fun h => ?_, fun h => ?_, fun tf v st => ?_⟩
  · simp [eligible, h]
  · simp [eligible, h]
  · by_cases h : eligible pref n = true <;> simp [envStep, h]

/-- Claim C4 witness. Concrete instances: with prefix `"TEST_"`, the variable
`TEST_VALUE1` is eligible (case-insensitively prefixed) and is written
under its normalized name; `OTHER` is not eligible and writes nothing. -/
theorem C4_env_eligibility_witness :
    (("TEST_".data : GoStr) ≠ [] ∧
      (eligible ("TEST_".data) ("TEST_VALUE1".data) = true ↔
        (goToLower ("TEST_".data)).isPrefixOf (goToLower ("TEST_VALUE1".data)) = true)) ∧
    (eligible ("TEST_".data) ("OTHER".data) = false) := by
  refine ⟨⟨by decide, (C4_env_eligibility ("TEST_".data) ("TEST_VALUE1".data)).1 (by decide)⟩, by decide⟩

/-- Claim C6. For a single-character delimiter `d` (the only case `New`
admits), `updateEnv` strips the configured prefix from the start only when
it matches byte-for-byte including case (otherwise a no-op), then
lower-cases the remainder and replaces every underscore by `d` — expressed
as a per-character map, so each underscore becomes its own delimiter
character (no collapsing of consecutive or trailing underscores) and the
function is total. -/
theorem C6_updateEnv_normalizes (c : goconfig.Config) (d : Char)
    (hd : c.delimiter = [d]) (s : GoStr) :
    c.updateEnv s =
      (if c.envPrefix.isPrefixOf s then s.drop c.envPrefix.length else s).map
        (fun ch => if ch.toLower = '_' then d else ch.toLower) := by
  unfold goconfig.Config.updateEnv goTrimPrefix
  rw [hd, goReplaceUnderscore_single]
  unfold goToLower
  rw [List.map_map]
  rfl

/-- Claim C6 witness. Concrete instance: prefix `"TEST_"`, delimiter `'.'`,
input `TEST_A_B__` — the prefix is stripped, the remainder lower-cased,
and each of the three remaining underscores (including the consecutive
trailing pair) becomes its own `'.'`. -/
theorem C6_updateEnv_normalizes_witness :
    (goconfig.Config.mk ("TEST_".data) (".".data)).delimiter = ['.'] ∧
      (goconfig.Config.mk ("TEST_".data) (".".data)).updateEnv ("TEST_A_B__".data) =
        (if ("TEST_".data : GoStr).isPrefixOf ("TEST_A_B__".data) then
            ("TEST_A_B__".data : GoStr).drop ("TEST_".data : GoStr).length
          else ("TEST_A_B__".data)).map
          (fun ch => if ch.toLower = '_' then '.' else ch.toLower) :=
  ⟨rfl, C6_updateEnv_normalizes (goconfig.Config.mk ("TEST_".data) (".".data)) '.' rfl ("TEST_A_B__".data)⟩

/-- Claim C1. Overlay precedence is file < environment < flag: when the same
key `k` receives value `v1` from a configuration file, `v2` from an
eligible environment variable, and `v3` from a flag, the materialized
result holds the flag's value `v3`; with the flag removed it holds the
environment's `v2`; with both removed it holds the file's `v1`. -/
theorem C1_overlay_precedence (c : goconfig.Config) (fsys : FS)
    (p k n v0 v1 v2 v3 : GoStr)
    (hk : k ≠ FileArgName)
    (hfs : fsys p = Except.ok [(k, v1)])
    (helig : eligible c.envPrefix n = true)
    (hnorm : c.updateEnv n = k)
    (_h12 : v1 ≠ v2) (_h23 : v2 ≠ v3) (_h13 : v1 ≠ v3) :
    (goconfig.Config.Load c fsys [(n, v2)]
        ⟨[⟨FileArgName, FlagValue.slice [p], true⟩, ⟨k, FlagValue.scalar v3, true⟩], none⟩
        [(k, v0)]
      = LoadOutcome.ok [(k, v3)]) ∧
    (goconfig.Config.Load c fsys [(n, v2)]
        ⟨[⟨FileArgName, FlagValue.slice [p], true⟩], none⟩ [(k, v0)]
      = LoadOutcome.ok [(k, v2)]) ∧
    (goconfig.Config.Load c fsys []
        ⟨[⟨FileArgName, FlagValue.slice [p], true⟩], none⟩ [(k, v0)]
      = LoadOutcome.ok [(k, v1)]) := by
  have hcfg1 :
      goconfig.getConfigSlice
          ⟨[⟨FileArgName, FlagValue.slice [p], true⟩, ⟨k, FlagValue.scalar v3, true⟩], none⟩
        = Except.ok [p] := rfl
  have hcfg2 :
      goconfig.getConfigSlice ⟨[⟨FileArgName, FlagValue.slice [p], true⟩], none⟩
        = Except.ok [p] := rfl
  refine ⟨?_, ?_, ?_⟩
  · simp only [goconfig.Config.Load, hcfg1, loadFiles, hfs, mergePairs, List.foldl,
      envStep, helig, if_true, hnorm, flagProviderRead, flagWrites, materialize,
      List.map, flagValueStr, storeSet_same, storeSet]
    simp [hk]
  · simp only [goconfig.Config.Load, hcfg2, loadFiles, hfs, mergePairs, List.foldl,
      envStep, helig, if_true, hnorm, flagProviderRead, flagWrites, materialize,
      List.map, flagValueStr, storeSet]
    simp [hk]
  · simp only [goconfig.Config.Load, hcfg2, loadFiles, hfs, mergePairs, List.foldl,
      envStep, flagProviderRead, flagWrites, materialize, List.map, flagValueStr,
      storeSet, emptyStore]
    simp [hk]

/-- Claim C1 witness. Concrete instance: prefix `"TEST_"`, delimiter `"."`,
key `value1` set to `201` by the file `cfg.yaml`, to `202` by the
environment variable `TEST_VALUE1`, and to `203` by the flag `value1`:
the result is `203`; dropping the flag gives `202`; dropping both gives
`201`. -/
theorem C1_overlay_precedence_witness :
    (goconfig.Config.Load ⟨"TEST_".data, ".".data⟩
        (fun q => if q = ("cfg.yaml".data : GoStr)
          then Except.ok [(("value1".data : GoStr), ("201".data : GoStr))]
          else Except.error [])
        [(("TEST_VALUE1".data : GoStr), ("202".data : GoStr))]
        ⟨[⟨FileArgName, FlagValue.slice [("cfg.yaml".data)], true⟩,
          ⟨"value1".data, FlagValue.scalar ("203".data), true⟩], none⟩
        [(("value1".data : GoStr), ("0".data : GoStr))]
      = LoadOutcome.ok [(("value1".data : GoStr), ("203".data : GoStr))]) ∧
    (goconfig.Config.Load ⟨"TEST_".data, ".".data⟩
        (fun q => if q = ("cfg.yaml".data : GoStr)
          then Except.ok [(("value1".data : GoStr), ("201".data : GoStr))]
          else Except.error [])
        [(("TEST_VALUE1".data : GoStr), ("202".data : GoStr))]
        ⟨[⟨FileArgName, FlagValue.slice [("cfg.yaml".data)], true⟩], none⟩
        [(("value1".data : GoStr), ("0".data : GoStr))]
      = LoadOutcome.ok [(("value1".data : GoStr), ("202".data : GoStr))]) ∧
    (goconfig.Config.Load ⟨"TEST_".data, ".".data⟩
        (fun q => if q = ("cfg.yaml".data : GoStr)
          then Except.ok [(("value1".data : GoStr), ("201".data : GoStr))]
          else Except.error [])
        []
        ⟨[⟨FileArgName, FlagValue.slice [("cfg.yaml".data)], true⟩], none⟩
        [(("value1".data : GoStr), ("0".data : GoStr))]
      = LoadOutcome.ok [(("value1".data : GoStr), ("201".data : GoStr))]) :=
  C1_overlay_precedence ⟨"TEST_".data, ".".data⟩ _
    ("cfg.yaml".data) ("value1".data) ("TEST_VALUE1".data)
    ("0".data) ("201".data) ("202".data) ("203".data)
    (by decide) (by simp) (by decide) (by decide)
    (by decide) (by decide) (by decide)

/-- Claim C2. The flag-loading step, on a flag set whose collaborator reports
no inconsistency, writes every defined flag's value into the store under
the flag's own name; for a flag `fl` with no later same-named flag the
store afterwards holds exactly `fl`'s value at key `fl.name`, whatever
value the store held there before (so a file or environment value for the
same key is overwritten) and whether or not the flag was explicitly set
(`fl.changed` is unconstrained, so an unset flag's default value also
overrides). -/
theorem C2_flags_overwrite (f : FlagSet) (st : Store) (fl : FlagDef)
    (l₁ l₂ : List FlagDef)
    (hsplit : f.flags = l₁ ++ fl :: l₂)
    (hlast : ∀ g ∈ l₂, g.name ≠ fl.name)
    (hread : f.readErr = none) :
    flagProviderRead f st = Except.ok (flagWrites f.flags st) ∧
      flagWrites f.flags st fl.name = some (flagValueStr fl.value) := by
  constructor
  · simp [flagProviderRead, hread]
  · rw [hsplit, flagWrites_append]
    calc flagWrites (fl :: l₂) (flagWrites l₁ st) fl.name
        = flagWrites l₂ (storeSet (flagWrites l₁ st) fl.name (flagValueStr fl.value)) fl.name := rfl
      _ = storeSet (flagWrites l₁ st) fl.name (flagValueStr fl.value) fl.name :=
          flagWrites_not_named _ _ _ hlast
      _ = some (flagValueStr fl.value) := storeSet_same _ _ _

/-- Claim C2 witness. Concrete instance: the flag `value1` has default `7`
and was NOT set on the command line (`changed = false`); the store already
holds `42` for `value1` (say from the environment); after the flag step
the store holds the flag's default `7`. -/
theorem C2_flags_overwrite_witness :
    flagProviderRead ⟨[⟨"value1".data, FlagValue.scalar ("7".data), false⟩], none⟩
        (storeSet emptyStore ("value1".data) ("42".data))
      = Except.ok (flagWrites [⟨"value1".data, FlagValue.scalar ("7".data), false⟩]
          (storeSet emptyStore ("value1".data) ("42".data))) ∧
      flagWrites [⟨"value1".data, FlagValue.scalar ("7".data), false⟩]
          (storeSet emptyStore ("value1".data) ("42".data)) ("value1".data)
        = some (flagValueStr (FlagValue.scalar ("7".data))) :=
  C2_flags_overwrite ⟨[⟨"value1".data, FlagValue.scalar ("7".data), false⟩], none⟩
    (storeSet emptyStore ("value1".data) ("42".data))
    ⟨"value1".data, FlagValue.scalar ("7".data), false⟩ [] []
    rfl (by simp) rfl

/-- Claim C5. Failing input for the claim: when the flag collaborator reports
an inconsistency during the flag-loading step, the current engine's `Load`
does not return a `FlagReadError`-class error — `goconfig.go` calls
`log.Fatalf("Load flags: %v", err)`, which terminates the process; the
legacy `cfgloader` engine returns the wrapped error as the claim (and the
spec's error taxonomy) describes. -/
theorem C5_flag_error_fatal :
    goconfig.Config.Load ⟨"TEST_".data, ".".data⟩ (fun _ => Except.error []) []
        ⟨[], some ("wrong expected type".data)⟩ []
      = LoadOutcome.fatal ("wrong expected type".data) ∧
    cfgloader.Config.Load ⟨"TEST_".data, ".".data⟩ (fun _ => Except.error []) []
        ⟨[], some ("wrong expected type".data)⟩ []
      = LoadOutcome.err (LoadError.flagRead ("wrong expected type".data)) ∧
    LoadOutcome.fatal ("wrong expected type".data)
      ≠ LoadOutcome.err (LoadError.flagRead ("wrong expected type".data)) := by
  refine ⟨rfl, rfl, ?_⟩
  intro h
  exact LoadOutcome.noConfusion h

/-- Claim C7. The file-loading step processes the supplied paths strictly in
order and fails fast: loading `l₁ ++ l₂` is loading `l₁` and, only if that
succeeded, continuing with `l₂` from the resulting store; a path whose
read/decode fails makes the step return that path's error at once — the
result does not depend on the remaining paths, which are never attempted —
and a failing file step makes `Load` return its error immediately. -/
theorem C7_files_in_order_fail_fast (fsys : FS) :
    (∀ (l₁ l₂ : List GoStr) (st : Store),
      loadFiles fsys (l₁ ++ l₂) st =
        match loadFiles fsys l₁ st with
        | Except.error e => Except.error e
        | Except.ok st₁ => loadFiles fsys l₂ st₁) ∧
    (∀ (p : GoStr) (l₂ : List GoStr) (st : Store) (msg : GoStr),
      fsys p = Except.error msg →
        loadFiles fsys (p :: l₂) st = Except.error (LoadError.fileErr p msg)) ∧
    (∀ (c : goconfig.Config) (env : List (GoStr × GoStr)) (f : FlagSet) (t : Target)
        (ps : List GoStr) (e : LoadError),
      goconfig.getConfigSlice f = Except.ok ps →
        loadFiles fsys ps emptyStore = Except.error e →
        goconfig.Config.Load c fsys env f t = LoadOutcome.err e) := by
  refine ⟨fun l₁ l₂ st => ?_, fun p l₂ st msg h => ?_, fun c env f t ps e h1 h2 => ?_⟩
  · induction l₁ generalizing st with
    | nil => simp [loadFiles]
    | cons p rest ih =>
      cases h : fsys p with
      | error msg => simp [loadFiles, h]
      | ok kvs => simp [loadFiles, h, ih]
  · simp [loadFiles, h]
  · simp [goconfig.Config.Load, h1, h2]

/-- Claim C7 witness. Concrete instance: the path list `[good, bad, after]`
in which `good` decodes, `bad` fails, and `after` would decode — the step
stops at `bad` and returns its error; and the load call returns that same
error. -/
theorem C7_files_in_order_fail_fast_witness :
    (loadFiles
        (fun q => if q = ("bad.yaml".data : GoStr) then Except.error ("no such file".data)
          else Except.ok [])
        (("good.yaml".data) :: ("bad.yaml".data) :: [("after.yaml".data)]) emptyStore
      = Except.error (LoadError.fileErr ("bad.yaml".data) ("no such file".data))) ∧
    (goconfig.Config.Load ⟨"TEST_".data, ".".data⟩
        (fun q => if q = ("bad.yaml".data : GoStr) then Except.error ("no such file".data)
          else Except.ok [])
        [] ⟨[⟨FileArgName, FlagValue.slice [("good.yaml".data), ("bad.yaml".data), ("after.yaml".data)], true⟩], none⟩ []
      = LoadOutcome.err (LoadError.fileErr ("bad.yaml".data) ("no such file".data))) := by
  constructor
  · have h := (C7_files_in_order_fail_fast
        (fun q => if q = ("bad.yaml".data : GoStr) then Except.error ("no such file".data)
          else Except.ok [])).2.1
      ("bad.yaml".data) [("after.yaml".data)] (mergePairs emptyStore []) ("no such file".data)
      (by simp)
    calc loadFiles _ (("good.yaml".data) :: ("bad.yaml".data) :: [("after.yaml".data)]) emptyStore
        = loadFiles _ (("bad.yaml".data) :: [("after.yaml".data)]) (mergePairs emptyStore []) := by
          simp [loadFiles]
      _ = Except.error (LoadError.fileErr ("bad.yaml".data) ("no such file".data)) := h
  · exact (C7_files_in_order_fail_fast _).2.2 ⟨"TEST_".data, ".".data⟩ [] _ []
      [("good.yaml".data), ("bad.yaml".data), ("after.yaml".data)]
      (LoadError.fileErr ("bad.yaml".data) ("no such file".data)) rfl (by simp [loadFiles, mergePairs])

/-- Claim C8. When the flag set defines no option named `"config"` at all,
the file-loading step is skipped without error: the load call is exactly
the environment step on the fresh store, followed by the flag step and
materialization (so those phases still run, and no file error can be
produced). -/
theorem C8_no_config_flag_skips_files (c : goconfig.Config) (fsys : FS)
    (env : List (GoStr × GoStr)) (f : FlagSet) (t : Target)
    (h : f.lookup FileArgName = none) :
    goconfig.Config.Load c fsys env f t =
      match flagProviderRead f (envStep c.envPrefix c.updateEnv env emptyStore) with
      | Except.error m => LoadOutcome.fatal m
      | Except.ok st => LoadOutcome.ok (materialize st t) := by
  simp [goconfig.Config.Load, goconfig.getConfigSlice, h, loadFiles]

/-- Claim C8 witness. Concrete instance: a flag set with one ordinary flag
and no `"config"` option — no file is touched (the file system refuses
every path), the environment and flag phases run, and the load succeeds
with the flag's value materialized. -/
theorem C8_no_config_flag_skips_files_witness :
    goconfig.Config.Load ⟨"TEST_".data, ".".data⟩ (fun _ => Except.error ("refused".data))
        [(("TEST_VALUE2".data : GoStr), ("22".data : GoStr))]
        ⟨[⟨"value1".data, FlagValue.scalar ("11".data), true⟩], none⟩
        [(("value1".data : GoStr), ("0".data : GoStr)), (("value2".data : GoStr), ("0".data : GoStr))]
      = LoadOutcome.ok
          [(("value1".data : GoStr), ("11".data : GoStr)), (("value2".data : GoStr), ("22".data : GoStr))] := by
  rw [C8_no_config_flag_skips_files _ _ _ _ _ (by decide)]
  decide

/-- Claim C9. Round trip: a load whose `"config"` option names only files
that decode to nothing (or names no files at all), with no eligible
environment variable, and whose flag set defines nothing besides the
`"config"` option itself, succeeds and returns the target object exactly
as it was (every field keeps its pre-existing default, provided no field
is tagged with the reserved name `"config"`). -/
theorem C9_empty_load_round_trip (c : goconfig.Config) (fsys : FS)
    (env : List (GoStr × GoStr)) (f : FlagSet) (t : Target) (ps : List GoStr)
    (hcfg : goconfig.getConfigSlice f = Except.ok ps)
    (hfiles : ∀ p ∈ ps, fsys p = Except.ok [])
    (henv : ∀ nv ∈ env, eligible c.envPrefix nv.1 = false)
    (hflags : ∀ fl ∈ f.flags, fl.name = FileArgName)
    (hread : f.readErr = none)
    (ht : ∀ fv ∈ t, fv.1 ≠ FileArgName) :
    goconfig.Config.Load c fsys env f t = LoadOutcome.ok t := by
  simp only [goconfig.Config.Load, hcfg, loadFiles_all_empty fsys ps emptyStore hfiles,
    envStep_ineligible c.envPrefix c.updateEnv env emptyStore henv,
    flagProviderRead, hread]
  have hmat : materialize (flagWrites f.flags emptyStore) t = t := by
    have hmap : ∀ fv ∈ t,
        (fv.1, ((flagWrites f.flags emptyStore) fv.1).getD fv.2) = fv := by
      intro fv hfv
      have hskip : flagWrites f.flags emptyStore fv.1 = emptyStore fv.1 :=
        flagWrites_not_named f.flags emptyStore fv.1
          (fun fl hfl => by rw [hflags fl hfl]; exact (ht fv hfv).symm)
      rw [hskip]
      simp [emptyStore]
    calc materialize (flagWrites f.flags emptyStore) t
        = t.map id := List.map_congr_left hmap
      _ = t := List.map_id t
  rw [hmat]

/-- Claim C9 witness. Concrete instance: an empty configuration file, an
environment containing only the ineligible variable `OTHER`, and a flag
set defining only the `"config"` option — the target keeps its defaults. -/
theorem C9_empty_load_round_trip_witness :
    goconfig.Config.Load ⟨"TEST_".data, ".".data⟩
        (fun _ => Except.ok []) [(("OTHER".data : GoStr), ("9".data : GoStr))]
        ⟨[⟨FileArgName, FlagValue.slice [("empty.yaml".data)], true⟩], none⟩
        [(("value1".data : GoStr), ("1".data : GoStr))]
      = LoadOutcome.ok [(("value1".data : GoStr), ("1".data : GoStr))] :=
  C9_empty_load_round_trip ⟨"TEST_".data, ".".data⟩ _ _ _ _ [("empty.yaml".data)]
    rfl (by simp) (by decide) (by decide) rfl (by decide)

/-- Claim C10, counterexample. The claim says one variant decodes YAML and
the other JSON, and that all error outcomes agree.  Both are false on the
source: both variants instantiate `yaml.Parser()` (so neither decodes
JSON), and on a load whose flag collaborator reports an inconsistency the
current engine terminates the process (`log.Fatalf`) while the legacy
engine returns the error — the outcomes differ. -/
theorem C10_counterexample :
    goconfig.fileFormat = FileFormat.yaml ∧
    cfgloader.fileFormat = FileFormat.yaml ∧
    goconfig.Config.Load ⟨[], ".".data⟩ (fun _ => Except.error []) []
        ⟨[], some ("inconsistent".data)⟩ []
      = LoadOutcome.fatal ("inconsistent".data) ∧
    cfgloader.Config.Load ⟨[], ".".data⟩ (fun _ => Except.error []) []
        ⟨[], some ("inconsistent".data)⟩ []
      = LoadOutcome.err (LoadError.flagRead ("inconsistent".data)) ∧
    LoadOutcome.fatal ("inconsistent".data)
      ≠ LoadOutcome.err (LoadError.flagRead ("inconsistent".data)) := by
  refine ⟨rfl, rfl, rfl, rfl, fun h => LoadOutcome.noConfusion h⟩

/-- Claim C10, amended. The two engine variants agree on construction
validation (success for exactly the same inputs, holding the same two
values), on key normalization, on the file format (both decode YAML — not
one YAML and one JSON), and on which `"config"` option values they accept;
every load whose `"config"` option is absent or reads as a string slice
and whose flag collaborator reports no inconsistency produces identical
results in the two engines — including identical file-phase errors, with
no constraint on whether the file step succeeds; but their error outcomes
differ in the flag phase: the current engine terminates the process via
`log.Fatalf` where the legacy engine returns the wrapped error. -/
theorem C10_variants_agreement :
    (∀ p d, (goconfig.New p d).isOk = (cfgloader.New p d).isOk) ∧
    (∀ p d, goconfig.New p d = Except.ok ⟨p, d⟩ ↔ cfgloader.New p d = Except.ok ⟨p, d⟩) ∧
    (∀ p d s, (goconfig.Config.mk p d).updateEnv s = (cfgloader.Config.mk p d).updateEnv s) ∧
    (goconfig.fileFormat = cfgloader.fileFormat) ∧
    (∀ f ps, goconfig.getConfigSlice f = Except.ok ps ↔ cfgloader.getConfigSlice f = Except.ok ps) ∧
    (∀ (cp cd : GoStr) (fsys : FS) (env : List (GoStr × GoStr)) (f : FlagSet)
        (t : Target) (ps : List GoStr),
      goconfig.getConfigSlice f = Except.ok ps →
      f.readErr = none →
        goconfig.Config.Load ⟨cp, cd⟩ fsys env f t
          = cfgloader.Config.Load ⟨cp, cd⟩ fsys env f t) ∧
    (∀ (cp cd : GoStr) (fsys : FS) (env : List (GoStr × GoStr)) (f : FlagSet)
        (t : Target) (ps : List GoStr) (st : Store) (m : GoStr),
      goconfig.getConfigSlice f = Except.ok ps →
      loadFiles fsys ps emptyStore = Except.ok st →
      f.readErr = some m →
        goconfig.Config.Load ⟨cp, cd⟩ fsys env f t = LoadOutcome.fatal m ∧
        cfgloader.Config.Load ⟨cp, cd⟩ fsys env f t
          = LoadOutcome.err (LoadError.flagRead m)) := by
  have hslice : ∀ (f : FlagSet) (ps : List GoStr),
      goconfig.getConfigSlice f = Except.ok ps ↔ cfgloader.getConfigSlice f = Except.ok ps := by
    intro f ps
    unfold goconfig.getConfigSlice cfgloader.getConfigSlice
    cases f.lookup FileArgName with
    | none => simp
    | some fl => cases hv : fl.value with
      | scalar v => simp [hv]
      | slice xs => simp [hv]
  refine ⟨fun p d => ?_, fun p d => ?_, fun p d s => rfl, rfl, hslice,
    fun cp cd fsys env f t ps h1 h3 => ?_, fun cp cd fsys env f t ps st m h1 h2 h3 => ?_⟩
  · unfold goconfig.New cfgloader.New
    by_cases h : utf8Len d = 1
    · rw [if_neg (fun hh => hh h), if_neg (fun hh => hh h)]
      rfl
    · rw [if_pos h, if_pos h]
      rfl
  · by_cases h : utf8Len d = 1 <;> simp [goconfig.New, cfgloader.New, h]
  · have h1c : cfgloader.getConfigSlice f = Except.ok ps := (hslice f ps).mp h1
    cases h2 : loadFiles fsys ps emptyStore with
    | error e => simp [goconfig.Config.Load, cfgloader.Config.Load, h1, h1c, h2]
    | ok st =>
      simp only [goconfig.Config.Load, cfgloader.Config.Load, h1, h1c, h2,
        flagProviderRead, h3]
      rfl
  · have h1c : cfgloader.getConfigSlice f = Except.ok ps := (hslice f ps).mp h1
    constructor
    · simp [goconfig.Config.Load, h1, h2, flagProviderRead, h3]
    · simp [cfgloader.Config.Load, h1c, h2, flagProviderRead, h3]

/-- Claim C10 witness. Two concrete instances of the amended claim: a load
whose only file fails to read, where the flag collaborator reports no
inconsistency — the two engines produce the identical outcome (the same
file-phase error); and a flag set with no `"config"` option whose
collaborator reports the inconsistency `"boom"` — the current engine's
outcome is process termination, the legacy engine's a returned `FlagRead`
error. -/
theorem C10_variants_agreement_witness :
    (goconfig.Config.Load ⟨"P_".data, ".".data⟩
        (fun _ => Except.error ("no such file".data)) []
        ⟨[⟨FileArgName, FlagValue.slice [("a.yaml".data)], true⟩], none⟩ []
      = cfgloader.Config.Load ⟨"P_".data, ".".data⟩
        (fun _ => Except.error ("no such file".data)) []
        ⟨[⟨FileArgName, FlagValue.slice [("a.yaml".data)], true⟩], none⟩ []) ∧
    goconfig.Config.Load ⟨"P_".data, ".".data⟩ (fun _ => Except.ok []) []
        ⟨[], some ("boom".data)⟩ []
      = LoadOutcome.fatal ("boom".data) ∧
    cfgloader.Config.Load ⟨"P_".data, ".".data⟩ (fun _ => Except.ok []) []
        ⟨[], some ("boom".data)⟩ []
      = LoadOutcome.err (LoadError.flagRead ("boom".data)) :=
  ⟨C10_variants_agreement.2.2.2.2.2.1 ("P_".data) (".".data)
      (fun _ => Except.error ("no such file".data)) []
      ⟨[⟨FileArgName, FlagValue.slice [("a.yaml".data)], true⟩], none⟩ []
      [("a.yaml".data)] rfl rfl,
    C10_variants_agreement.2.2.2.2.2.2 ("P_".data) (".".data) (fun _ => Except.ok []) []
      ⟨[], some ("boom".data)⟩ [] [] emptyStore ("boom".data) rfl rfl rfl⟩
